import Mathlib

/-!
Verification of the edit-compile-preview pipeline of the BalderPlayground
server against its specification.

The definitions below are a shallow embedding of the repository's code:
the websocket message handler and the preview route of the latest server
draft (the one using the synchronous `transpile` call), the older draft
(`index.ts`, which spawns a `tsc` subprocess without awaiting it), and
the session-resolution lines shared by both.  Source text is represented
as `List Char`; identifiers and file names as `String`.
-/

set_option autoImplicit false

namespace Balder

/-- The newline character on which the client and server split and join
source lines (`fileContents.join("\n")`, `code.split("\n")`). -/
def nl : Char := '\n'

/-- JavaScript `Array.prototype.join("\n")`: empty array joins to the empty
string, a singleton to its element, otherwise elements separated by the
newline character. -/
def joinNl : List (List Char) → List Char
  | [] => []
  | [l] => l
  | l :: l2 :: ls => l ++ nl :: joinNl (l2 :: ls)

/-- JavaScript `String.prototype.split("\n")`: splits into the (possibly
empty) maximal chunks between newline characters; the empty string splits
to a one-element array holding the empty string. -/
def splitNl : List Char → List (List Char)
  | [] => [[]]
  | c :: cs =>
    if c = nl then [] :: splitNl cs
    else
      match splitNl cs with
      | [] => [[c]]
      | l :: ls => (c :: l) :: ls

/-- The on-disk workspace area under `preview/`: a partial map from user
identifier and file name to file content. -/
def Files : Type := String → String → Option (List Char)

/-- `Bun.write(dir + user + name, content)`: update one file, leave the
rest of the store unchanged. -/
def writeFile (st : Files) (u f : String) (c : List Char) : Files :=
  fun u2 f2 => if u2 = u ∧ f2 = f then some c else st u2 f2

/-- JavaScript template-literal interpolation of a possibly undefined
value: an undefined field interpolates as the literal text "undefined",
so a missing `user` field routes the write to the directory named
"undefined". -/
def jsStr : Option String → String
  | some s => s
  | none => "undefined"

/-- The hardcoded workspace identifier `let userId = "f8f4..."` used to
build `previewFolder`. -/
def userId : String := "f8f4b2b7-b016-418b-b80b-c36630badc64"

/-- An inbound websocket message after `JSON.parse`, with the fields the
handler inspects.  `none` models an absent (undefined) field; a present
`fileContents` array is truthy in JavaScript even when empty. -/
structure WsMsg where
  user : Option String
  userId : Option String
  fileContents : Option (List (List Char))
  resume : Bool

/-- A message sent back over the websocket connection by the handler. -/
inductive OutMsg : Type
  | reload
  | resumeMsg (content : List (List Char))
deriving DecidableEq

/-- Result of running the websocket message handler: the workspace file
store, the messages sent on this connection (in send order), and whether
the handler raised an error (a rejected file read or a JSON parse
failure). -/
structure WsResult where
  files : Files
  out : List OutMsg
  errored : Bool

/-- The `websocket.message` handler of the latest draft: if
`msg.fileContents` is truthy, join the lines, persist the raw source as
`script.ts` under `msg.user`, transpile, persist the artifact as
`script.js`, and send a reload message; if `msg.resume` is truthy, read
`script.ts` under `msg.userId` and send its newline-split content (the
read of a missing file rejects, so no resume reply is sent and the
handler errors). -/
def wsMessage (transpile : List Char → List Char) (st : Files) (msg : WsMsg) : WsResult :=
  let r1 : Files × List OutMsg :=
    match msg.fileContents with
    | some fileContents =>
      let user := jsStr msg.user
      let code := joinNl fileContents
      let st1 := writeFile st user "script.ts" code
      let code2 := transpile code
      let st2 := writeFile st1 user "script.js" code2
      (st2, [OutMsg.reload])
    | none => (st, [])
  if msg.resume then
    let u := jsStr msg.userId
    match r1.1 u "script.ts" with
    | some code => ⟨r1.1, r1.2 ++ [OutMsg.resumeMsg (splitNl code)], false⟩
    | none => ⟨r1.1, r1.2, true⟩
  else ⟨r1.1, r1.2, false⟩

/-- The handler including the `JSON.parse` step: a message that is not
valid JSON (`none`) throws inside the handler, leaving the store
untouched and sending nothing. -/
def wsMessageRaw (transpile : List Char → List Char) (st : Files) (inbound : Option WsMsg) :
    WsResult :=
  match inbound with
  | none => ⟨st, [], true⟩
  | some msg => wsMessage transpile st msg

/-- An HTTP response of the preview route: the file content with its
content type, or a 404. -/
inductive HResp : Type
  | ok (content : List Char)
  | notFound
deriving DecidableEq

/-- The `/preview` branch of the fetch handler.  The request URL is
`/preview/<reqUserId>/<fileName>`; the code takes only the last path
segment (`url.toString().split("/").pop()`), defaults it to
`index.html` when empty, and reads it from `previewFolder`, which is
built from the hardcoded `userId` — the `reqUserId` segment of the URL
plays no part in the lookup. -/
def previewRoute (st : Files) (reqUserId fileName : String) : HResp :=
  let requestedFile := fileName
  let requestedFile := if requestedFile = "" then "index.html" else requestedFile
  match st userId requestedFile with
  | some c => HResp.ok c
  | none => HResp.notFound

/-- Modelled from the spec: the Preview Server contract
(`GET /preview/<userId>/<fileName>` returns the named file from that
user's workspace directory, status 404 if absent).  Stated for
comparison with `previewRoute`, which is what the code does. -/
def previewRouteSpec (st : Files) (reqUserId fileName : String) : HResp :=
  match st reqUserId fileName with
  | some c => HResp.ok c
  | none => HResp.notFound

/-- A session bag (`Record<string, unknown>` is modelled as a list of
key-value pairs; the pipeline only ever creates it empty). -/
abbrev Bag : Type := List (String × String)

/-- The process-wide `sessions` map from session token to bag. -/
def Registry : Type := String → Option Bag

/-- Session resolution as written in the fetch handler:
`sessionId = cookies["sessionId"] ?? crypto.randomUUID()` followed by
`if (!sessions[sessionId]) sessions[sessionId] = {}`.  `cookieTok` is the
cookie's token if present, `fresh` the UUID the random generator would
mint.  Returns the resolved token and the updated registry. -/
def resolveSession (reg : Registry) (cookieTok : Option String) (fresh : String) :
    String × Registry :=
  let sessionId := cookieTok.getD fresh
  match reg sessionId with
  | some _ => (sessionId, reg)
  | none => (sessionId, fun t => if t = sessionId then some [] else reg t)

/-- Modelled from the spec: the Session Registry contract, under which an
absent *or unknown* token mints a new random token and an empty bag, and
only a known token is returned unchanged.  Stated for comparison with
`resolveSession`, which is what the code does. -/
def resolveSessionSpec (reg : Registry) (cookieTok : Option String) (fresh : String) :
    String × Registry :=
  match cookieTok with
  | some t =>
    match reg t with
    | some _ => (t, reg)
    | none => (fresh, fun t2 => if t2 = fresh then some [] else reg t2)
  | none => (fresh, fun t2 => if t2 = fresh then some [] else reg t2)

/-- State of the older draft (`index.ts`), whose handler spawns
`exec("tsc ...")` and does not await it: besides the file store it keeps
the list of compile jobs that have been spawned but whose completion has
not yet landed, each capturing the user and the source text it was
started on. -/
structure IdxState where
  files : Files
  pending : List (String × List Char)

/-- The `websocket.message` handler of `index.ts`: joins the lines,
persists the raw source, spawns the `tsc` compile as a detached job, and
immediately sends the reload message — before, and regardless of, the
compile's outcome (the code itself carries the comment
`TODO: Wait for compile to finish.`). -/
def idxHandleEdit (st : IdxState) (user : String) (fileContents : List (List Char)) :
    IdxState × List OutMsg :=
  let typescript := joinNl fileContents
  let files1 := writeFile st.files user "script.ts" typescript
  (⟨files1, st.pending ++ [(user, typescript)]⟩, [OutMsg.reload])

/-- Completion of one detached `tsc` job: on compile success the artifact
is written as `script.js` under the job's user; on failure nothing is
published. -/
def completeJob (tsc : List Char → Option (List Char)) (files : Files)
    (job : String × List Char) : Files :=
  match tsc job.2 with
  | some art => writeFile files job.1 "script.js" art
  | none => files

/-- Completion of a list of detached jobs, landing in the given order.
Since `index.ts` neither awaits nor serializes the subprocesses, any
landing order of the pending jobs is a possible execution. -/
def completeJobs (tsc : List Char → Option (List Char)) (files : Files)
    (jobs : List (String × List Char)) : Files :=
  jobs.foldl (completeJob tsc) files

/-! ### Helper lemmas about newline splitting and joining -/

/-- Splitting any string on newline yields at least one chunk. -/
theorem splitNl_ne_nil (s : List Char) : splitNl s ≠ [] := by
  cases s with
  | nil => simp [splitNl]
  | cons c cs =>
    by_cases h : c = nl
    · simp [splitNl, h]
    · cases hs : splitNl cs with
      | nil => simp [splitNl, h, hs]
      | cons l ls => simp [splitNl, h, hs]

/-- A string with no newline splits to the singleton chunk of itself. -/
theorem splitNl_of_not_mem (l : List Char) (h : nl ∉ l) : splitNl l = [l] := by
  induction l with
  | nil => rfl
  | cons c cs ih =>
    have hc : ¬ c = nl := by
      rintro rfl; exact h (List.mem_cons_self _ _)
    have hcs : nl ∉ cs := fun hm => h (List.mem_cons_of_mem c hm)
    simp [splitNl, hc, ih hcs]

/-- Splitting a newline-free chunk, a newline, and a remainder peels off
the chunk. -/
theorem splitNl_append (l rest : List Char) (h : nl ∉ l) :
    splitNl (l ++ nl :: rest) = l :: splitNl rest := by
  induction l with
  | nil => simp [splitNl]
  | cons c cs ih =>
    have hc : ¬ c = nl := by
      rintro rfl; exact h (List.mem_cons_self _ _)
    have hcs : nl ∉ cs := fun hm => h (List.mem_cons_of_mem c hm)
    have h2 := ih hcs
    simp [splitNl, hc, List.append_eq, h2]

/-- Round trip: splitting the newline-join of a nonempty list of
newline-free lines recovers the lines. -/
theorem splitNl_joinNl (L : List (List Char)) (h0 : L ≠ [])
    (h : ∀ l ∈ L, nl ∉ l) : splitNl (joinNl L) = L := by
  induction L with
  | nil => exact absurd rfl h0
  | cons l ls ih =>
    cases ls with
    | nil =>
      have : joinNl [l] = l := rfl
      rw [this, splitNl_of_not_mem l (h l (List.mem_cons_self l []))]
    | cons l2 ls2 =>
      have hl : nl ∉ l := h l (List.mem_cons_self l (l2 :: ls2))
      have hrest : ∀ x ∈ l2 :: ls2, nl ∉ x := fun x hx => h x (List.mem_cons_of_mem l hx)
      have : joinNl (l :: l2 :: ls2) = l ++ nl :: joinNl (l2 :: ls2) := rfl
      rw [this, splitNl_append _ _ hl, ih (by simp) hrest]

/-! ### Claims -/

/-- C1: the claim says a Reload Message is sent if and only if the
compile succeeded and the artifact was published.  The `index.ts` handler
instead sends the reload unconditionally, immediately after spawning the
`tsc` subprocess (its own comment reads `TODO: Wait for compile to
finish.`): even when the compile of the joined source fails, the reload
is the handler's sole reply.  The remaining parts of the claim do hold:
the raw source is persisted regardless, and a failed compile leaves the
previously published artifact unchanged. -/
theorem C1_reload_sent_despite_compile_failure
    (tsc : List Char → Option (List Char)) (st : Files) (u : String)
    (L : List (List Char)) (hfail : tsc (joinNl L) = none) :
    (idxHandleEdit ⟨st, []⟩ u L).2 = [OutMsg.reload]
    ∧ (idxHandleEdit ⟨st, []⟩ u L).1.files u "script.ts" = some (joinNl L)
    ∧ completeJobs tsc (idxHandleEdit ⟨st, []⟩ u L).1.files
        (idxHandleEdit ⟨st, []⟩ u L).1.pending u "script.js" = st u "script.js" := by
  refine ⟨rfl, ?_, ?_⟩
  · simp [idxHandleEdit, writeFile]
  · simp [idxHandleEdit, completeJobs, completeJob, hfail, writeFile]

/-- Witness for C1: a concrete edit whose compile fails still answers
with the reload message alone. -/
theorem C1_reload_sent_despite_compile_failure_witness :
    (idxHandleEdit ⟨fun _ _ => none, []⟩ "u1" [['a']]).2 = [OutMsg.reload]
    ∧ (idxHandleEdit ⟨fun _ _ => none, []⟩ "u1" [['a']]).1.files "u1" "script.ts"
      = some (joinNl [['a']])
    ∧ completeJobs (fun _ => none) (idxHandleEdit ⟨fun _ _ => none, []⟩ "u1" [['a']]).1.files
        (idxHandleEdit ⟨fun _ _ => none, []⟩ "u1" [['a']]).1.pending "u1" "script.js"
      = (fun _ _ => (none : Option (List Char))) "u1" "script.js" :=
  C1_reload_sent_despite_compile_failure (fun _ => none) (fun _ _ => none) "u1" [['a']] rfl

/-- C2 counterexample: the claim quantifies over every line sequence, but
a line containing an embedded newline does not round-trip: after the
edit with the single line "a\nb", the resume reply carries the two lines
"a" and "b", not the line sequence that was sent. -/
theorem C2_counterexample :
    (wsMessage (fun c => c)
      (wsMessage (fun c => c) (fun _ _ => none)
        ⟨some "u1", none, some [['a', '\n', 'b']], false⟩).files
      ⟨none, some "u1", none, true⟩).out
      = [OutMsg.resumeMsg [['a'], ['b']]]
    ∧ ([['a'], ['b']] : List (List Char)) ≠ [['a', '\n', 'b']] := by decide

/-- C2 amended: for every Edit Message whose line sequence is nonempty
and whose lines contain no newline character (which is every sequence
the editor client can produce, since it splits its buffer on newline), a
subsequent Resume Message for the same user is answered with exactly the
lines most recently sent, whatever the transpiler did. -/
theorem C2_resume_roundtrip (transpile : List Char → List Char) (st : Files)
    (u : String) (L : List (List Char)) (h0 : L ≠ []) (h : ∀ l ∈ L, nl ∉ l) :
    (wsMessage transpile
      (wsMessage transpile st ⟨some u, none, some L, false⟩).files
      ⟨none, some u, none, true⟩).out = [OutMsg.resumeMsg L] := by
  have hts : writeFile (writeFile st u "script.ts" (joinNl L)) u "script.js"
      (transpile (joinNl L)) u "script.ts" = some (joinNl L) := by
    simp [writeFile]
  simp [wsMessage, jsStr, hts, splitNl_joinNl L h0 h]

/-- Witness for C2: a concrete one-line edit round-trips through resume. -/
theorem C2_resume_roundtrip_witness :
    (wsMessage (fun c => c)
      (wsMessage (fun c => c) (fun _ _ => none) ⟨some "u1", none, some [['a']], false⟩).files
      ⟨none, some "u1", none, true⟩).out = [OutMsg.resumeMsg [['a']]] :=
  C2_resume_roundtrip (fun c => c) (fun _ _ => none) "u1" [['a']] (by decide) (by decide)

/-- C3: the claim says per-user serialization prevents a stale older
compile from overwriting a newer edit's artifact.  `index.ts` has no
such serialization: the `tsc` jobs are detached, so the landing order of
their completions is unconstrained.  In the execution where the user
sends the edit with line "a" and then the edit with line "b" and the
second job lands before the first, the finally published artifact is the
compile of the older edit "a", not of "b". -/
theorem C3_stale_compile_overwrites_newer_edit :
    (completeJobs (fun s => some s)
      (idxHandleEdit (idxHandleEdit ⟨fun _ _ => none, []⟩ "u1" [['a']]).1 "u1" [['b']]).1.files
      (idxHandleEdit (idxHandleEdit ⟨fun _ _ => none, []⟩ "u1" [['a']]).1 "u1"
        [['b']]).1.pending.reverse)
      "u1" "script.js" = some ['a']
    ∧ joinNl [['b']] = ['b'] ∧ (['a'] : List Char) ≠ ['b'] := by decide

/-- C4 counterexample: the claim says the preview route serves the named
file from the requested user's workspace.  The route in fact ignores the
user segment of the URL and reads only from the folder of the hardcoded
`userId`: with a file `a.js` present only in user u2's workspace, the
request for `/preview/u2/a.js` answers 404 while the specified contract
answers the file's content. -/
theorem C4_counterexample :
    previewRoute (writeFile (fun _ _ => none) "u2" "a.js" ['A']) "u2" "a.js" = HResp.notFound
    ∧ previewRouteSpec (writeFile (fun _ _ => none) "u2" "a.js" ['A']) "u2" "a.js"
      = HResp.ok ['A'] := by decide

/-- C4 amended: the preview route answers, for every request, exactly
what the specified contract answers for the single hardcoded `userId`
workspace (a degenerate single-tenant configuration), with 404 when the
file is absent there; and after one edit for the hardcoded user is
processed, fetching `script.js` returns byte-for-byte the transpiler's
output for the joined source. -/
theorem C4_preview_serves_hardcoded_workspace (transpile : List Char → List Char)
    (st : Files) (reqU reqU2 f : String) (L : List (List Char)) (hf : f ≠ "") :
    previewRoute st reqU f = previewRouteSpec st userId f
    ∧ previewRoute (wsMessage transpile st ⟨some userId, none, some L, false⟩).files
        reqU2 "script.js" = HResp.ok (transpile (joinNl L)) := by
  constructor
  · simp [previewRoute, previewRouteSpec, hf]
  · have hjs : (wsMessage transpile st ⟨some userId, none, some L, false⟩).files
        userId "script.js" = some (transpile (joinNl L)) := by
      simp [wsMessage, jsStr, writeFile]
    simp [previewRoute, hjs]

/-- Witness for C4: with an empty store the route and the contract for
the hardcoded user agree (both 404), and after one concrete edit the
artifact is fetched back. -/
theorem C4_preview_serves_hardcoded_workspace_witness :
    previewRoute (fun _ _ => none) "u2" "x.js" = previewRouteSpec (fun _ _ => none) userId "x.js"
    ∧ previewRoute (wsMessage (fun c => c) (fun _ _ => none)
        ⟨some userId, none, some [['a']], false⟩).files
        "u3" "script.js" = HResp.ok ((fun c => c) (joinNl [['a']])) :=
  C4_preview_serves_hardcoded_workspace (fun c => c) (fun _ _ => none) "u2" "u3" "x.js"
    [['a']] (by decide)

/-- C5 counterexample: the claim says an unknown token mints a new
random token.  The code keeps a presented-but-unknown token as-is
(`cookies["sessionId"] ?? randomUUID()` only mints when the cookie is
absent): with an empty registry and the cookie token "evil", resolution
returns "evil" itself, not the freshly minted token, while the specified
contract returns the fresh one. -/
theorem C5_counterexample :
    (resolveSession (fun _ => none) (some "evil") "fresh-tok").1 = "evil"
    ∧ "evil" ≠ "fresh-tok"
    ∧ (resolveSessionSpec (fun _ => none) (some "evil") "fresh-tok").1 = "fresh-tok" := by
  decide

/-- C5 amended: session resolution never fails; an absent token mints
the fresh random token and creates an empty bag under it; a present
token is kept verbatim whether known or not — a known token leaves the
registry unchanged, an unknown presented token gets an empty bag created
under the presented token itself. -/
theorem C5_session_resolution (reg : Registry) (t u fresh : String) (b : Bag)
    (hknown : reg t = some b) (hunknown : reg u = none) (hfresh : reg fresh = none) :
    (resolveSession reg none fresh).1 = fresh
    ∧ (resolveSession reg none fresh).2 fresh = some []
    ∧ (resolveSession reg (some t) fresh).1 = t
    ∧ resolveSession reg (some t) fresh = (t, reg)
    ∧ (resolveSession reg (some u) fresh).1 = u
    ∧ (resolveSession reg (some u) fresh).2 u = some [] := by
  refine ⟨?_, ?_, ?_, ?_, ?_, ?_⟩
  · simp [resolveSession, hfresh]
  · simp [resolveSession, hfresh]
  · simp [resolveSession, hknown]
  · simp [resolveSession, hknown]
  · simp [resolveSession, hunknown]
  · simp [resolveSession, hunknown]

/-- Witness for C5: a registry knowing exactly the token "known",
resolved against an absent cookie, the known token, and the unknown
token "evil". -/
theorem C5_session_resolution_witness :
    (resolveSession (fun s => if s = "known" then some [] else none) none "f1").1 = "f1"
    ∧ (resolveSession (fun s => if s = "known" then some [] else none) none "f1").2 "f1"
      = some []
    ∧ (resolveSession (fun s => if s = "known" then some [] else none) (some "known") "f1").1
      = "known"
    ∧ resolveSession (fun s => if s = "known" then some [] else none) (some "known") "f1"
      = ("known", fun s => if s = "known" then some [] else none)
    ∧ (resolveSession (fun s => if s = "known" then some [] else none) (some "evil") "f1").1
      = "evil"
    ∧ (resolveSession (fun s => if s = "known" then some [] else none) (some "evil") "f1").2
        "evil" = some [] :=
  C5_session_resolution (fun s => if s = "known" then some [] else none) "known" "evil" "f1" []
    rfl rfl rfl

/-- C6: the claim says a resume for a user with no prior edits is
answered with an empty or default line sequence, not an error.  The
handler instead reads the missing `script.ts` with `Bun.file(...).text()`,
whose rejection aborts the handler: no resume reply is sent at all, the
handler errors, and (as the claim does say) the store is unchanged. -/
theorem C6_resume_without_prior_edit_errors :
    (wsMessage (fun c => c) (fun _ _ => none) ⟨none, some "u1", none, true⟩).errored = true
    ∧ (wsMessage (fun c => c) (fun _ _ => none) ⟨none, some "u1", none, true⟩).out = []
    ∧ (wsMessage (fun c => c) (fun _ _ => none) ⟨none, some "u1", none, true⟩).files
      = (fun _ _ => none) :=
  ⟨by decide, by decide, rfl⟩

/-- C7 counterexample: the claim says a message lacking the required
fields of a known kind is dropped with no state change and no reply.  A
message with a `fileContents` field but no `user` field is instead
processed as an edit for the literal directory name "undefined": the raw
source is written under it and a reload reply is sent. -/
theorem C7_counterexample :
    (wsMessageRaw (fun c => c) (fun _ _ => none)
      (some ⟨none, none, some [['x']], false⟩)).files "undefined" "script.ts" = some ['x']
    ∧ (wsMessageRaw (fun c => c) (fun _ _ => none)
      (some ⟨none, none, some [['x']], false⟩)).out = [OutMsg.reload] := by decide

/-- C7 amended: a message that is not valid JSON, or one with neither a
truthy `fileContents` nor a truthy `resume` field, leaves the store
untouched and sends no reply (the parse failure raising an error inside
the handler, scoped to this message); but a message of a known kind
missing its `user`/`userId` field is not dropped — it is handled under
the interpolated identifier "undefined". -/
theorem C7_malformed_message_dropped (transpile : List Char → List Char) (st : Files)
    (inbound : Option WsMsg)
    (h : inbound = none
      ∨ ∃ msg, inbound = some msg ∧ msg.fileContents = none ∧ msg.resume = false) :
    (wsMessageRaw transpile st inbound).files = st
    ∧ (wsMessageRaw transpile st inbound).out = [] := by
  rcases h with rfl | ⟨msg, rfl, h1, h2⟩
  · exact ⟨rfl, rfl⟩
  · constructor
    · simp [wsMessageRaw, wsMessage, h1, h2]
    · simp [wsMessageRaw, wsMessage, h1, h2]

/-- Witness for C7: an unparseable inbound message changes nothing and
answers nothing. -/
theorem C7_malformed_message_dropped_witness :
    (wsMessageRaw (fun c => c) (fun _ _ => none) none).files
      = (fun _ _ => (none : Option (List Char)))
    ∧ (wsMessageRaw (fun c => c) (fun _ _ => none) none).out = [] :=
  C7_malformed_message_dropped (fun c => c) (fun _ _ => none) none (Or.inl rfl)

/-- C8: the artifact published for an edit is a function of the joined
source text alone — processing the same line sequence from any two prior
store states publishes the identical artifact, namely the transpiler's
output on the joined text, so compiling the same source twice yields the
same artifact and no ambient state leaks into it. -/
theorem C8_compiler_deterministic (transpile : List Char → List Char)
    (st st' : Files) (u : Option String) (L : List (List Char)) :
    (wsMessage transpile st ⟨u, none, some L, false⟩).files (jsStr u) "script.js"
      = (wsMessage transpile st' ⟨u, none, some L, false⟩).files (jsStr u) "script.js"
    ∧ (wsMessage transpile st ⟨u, none, some L, false⟩).files (jsStr u) "script.js"
      = some (transpile (joinNl L)) := by
  have h1 : ∀ s : Files,
      (wsMessage transpile s ⟨u, none, some L, false⟩).files (jsStr u) "script.js"
        = some (transpile (joinNl L)) := by
    intro s
    simp [wsMessage, writeFile]
  exact ⟨(h1 st).trans (h1 st').symm, h1 st⟩

/-- C9 counterexample: the claim says a message carrying both kinds is
answered with resume content equal to the lines just submitted.  With
the single submitted line "a\nb" the resume content is the two lines
"a", "b" — the stored join is re-split on the embedded newline. -/
theorem C9_counterexample :
    (wsMessage (fun c => c) (fun _ _ => none)
      ⟨some "u1", some "u1", some [['a', '\n', 'b']], true⟩).out
      = [OutMsg.reload, OutMsg.resumeMsg [['a'], ['b']]]
    ∧ ([['a'], ['b']] : List (List Char)) ≠ [['a', '\n', 'b']] := by decide

/-- C9 amended: a message with both a truthy `fileContents` and a truthy
`resume` field is processed as both kinds in sequence — the edit is
persisted and published and the reload sent, then the resume reply
follows — and when its `userId` names the same user as `user` and the
submitted lines are nonempty and newline-free, the resume content equals
the lines just submitted. -/
theorem C9_dual_kind_message (transpile : List Char → List Char) (st : Files)
    (u : String) (L : List (List Char)) (h0 : L ≠ []) (h : ∀ l ∈ L, nl ∉ l) :
    (wsMessage transpile st ⟨some u, some u, some L, true⟩).out
      = [OutMsg.reload, OutMsg.resumeMsg L]
    ∧ (wsMessage transpile st ⟨some u, some u, some L, true⟩).files u "script.ts"
      = some (joinNl L)
    ∧ (wsMessage transpile st ⟨some u, some u, some L, true⟩).files u "script.js"
      = some (transpile (joinNl L)) := by
  refine ⟨?_, ?_, ?_⟩ <;> simp [wsMessage, jsStr, writeFile, splitNl_joinNl L h0 h]

/-- Witness for C9: a concrete dual-kind message for user "u1" with the
single line "a". -/
theorem C9_dual_kind_message_witness :
    (wsMessage (fun c => c) (fun _ _ => none) ⟨some "u1", some "u1", some [['a']], true⟩).out
      = [OutMsg.reload, OutMsg.resumeMsg [['a']]]
    ∧ (wsMessage (fun c => c) (fun _ _ => none)
        ⟨some "u1", some "u1", some [['a']], true⟩).files "u1" "script.ts"
      = some (joinNl [['a']])
    ∧ (wsMessage (fun c => c) (fun _ _ => none)
        ⟨some "u1", some "u1", some [['a']], true⟩).files "u1" "script.js"
      = some ((fun c => c) (joinNl [['a']])) :=
  C9_dual_kind_message (fun c => c) (fun _ _ => none) "u1" [['a']] (by decide) (by decide)

/-- C10: whenever a stored source exists for the resumed user, the
resume reply's content is its newline-split, which is never the empty
sequence; and storing the empty source yields the reply content holding
exactly the one empty line. -/
theorem C10_resume_content_nonempty (transpile : List Char → List Char) (st : Files)
    (uid : Option String) (s : List Char) (h : st (jsStr uid) "script.ts" = some s) :
    (wsMessage transpile st ⟨none, uid, none, true⟩).out = [OutMsg.resumeMsg (splitNl s)]
    ∧ splitNl s ≠ []
    ∧ (wsMessage transpile (writeFile st (jsStr uid) "script.ts" [])
        ⟨none, uid, none, true⟩).out = [OutMsg.resumeMsg [[]]] := by
  refine ⟨?_, splitNl_ne_nil s, ?_⟩
  · simp [wsMessage, h]
  · simp [wsMessage, writeFile, splitNl]

/-- Witness for C10: user "u1" with the empty string stored as source is
answered with the one-element content holding the empty line. -/
theorem C10_resume_content_nonempty_witness :
    (wsMessage (fun c => c) (writeFile (fun _ _ => none) "u1" "script.ts" ['a'])
      ⟨none, some "u1", none, true⟩).out = [OutMsg.resumeMsg (splitNl ['a'])]
    ∧ splitNl ['a'] ≠ []
    ∧ (wsMessage (fun c => c)
        (writeFile (writeFile (fun _ _ => none) "u1" "script.ts" ['a'])
          (jsStr (some "u1")) "script.ts" [])
        ⟨none, some "u1", none, true⟩).out = [OutMsg.resumeMsg [[]]] :=
  C10_resume_content_nonempty (fun c => c)
    (writeFile (fun _ _ => none) "u1" "script.ts" ['a']) (some "u1") ['a'] (by decide)

end Balder
